import Mathlib

/-!
Verification of the order/state reconciliation core of the
`ros_vda5050_connector` repository, a vehicle-side implementation of the
VDA 5050 fleet-communication protocol.

The embedding follows `src/include/models/State.h` (the `State` wrapper
class around the `vda5050_msgs::State` message) and
`src/include/models/Order.h`.  Member functions that mutate the wrapped
state message in place are embedded as pure functions `VState → ... → VState`
(or `VState × List LogEvent` when the C++ body can emit a
`ROS_ERROR_STREAM` log line; each log call site gets one `LogEvent`
constructor).  C++ `std::vector` fields become Lean lists, `uint32`
sequence ids become `Nat`, strings stay `String`, and `double` telemetry
fields become `ℚ` (exact ordered arithmetic; the only double operations the
embedded code performs are order comparisons and assignment).
-/

/-- A VDA 5050 node state (`vda5050_msgs::NodeState`): identity, sequence id
and the base/horizon `released` flag. -/
structure NodeState where
  nodeId : String
  sequenceId : Nat
  released : Bool
deriving DecidableEq, Repr

/-- A VDA 5050 edge state (`vda5050_msgs::EdgeState`). -/
structure EdgeState where
  edgeId : String
  sequenceId : Nat
  released : Bool
deriving DecidableEq, Repr

/-- A VDA 5050 action state (`vda5050_msgs::ActionState`).  The ROS message
has no `released` flag; the flag is carried here because the specified
horizon-replacement rule for `State::UpdateOrder` (whose implementation file
is not part of the shown sources) discards unreleased action states, so the
modelled state needs to record base/horizon membership of actions.  None of
the code embedded from `State.h` reads or writes it. -/
structure ActionState where
  actionId : String
  actionStatus : String
  resultDescription : String
  released : Bool
deriving DecidableEq, Repr

/-- A VDA 5050 error entry (`vda5050_msgs::Error`), keyed by `errorType`. -/
structure VError where
  errorType : String
  errorDescription : String
deriving DecidableEq, Repr

/-- One interaction zone of `vda5050_msgs::InteractionZoneStates`. -/
structure InteractionZone where
  zoneStatus : Nat
deriving DecidableEq, Repr

/-- An action attached to an order node or edge (`vda5050_msgs::Action`);
only the identity matters for the state-derivation rules. -/
structure VAction where
  actionId : String
deriving DecidableEq, Repr

/-- An order node (`vda5050_msgs::Node`). -/
structure VNode where
  nodeId : String
  sequenceId : Nat
  released : Bool
  actions : List VAction
deriving DecidableEq, Repr

/-- An order edge (`vda5050_msgs::Edge`). -/
structure VEdge where
  edgeId : String
  sequenceId : Nat
  released : Bool
  actions : List VAction
deriving DecidableEq, Repr

/-- The order message / `Order` wrapper content (`vda5050_msgs::Order`):
identity, revision counter, zone set and the node/edge sequences. -/
structure VOrder where
  orderId : String
  orderUpdateId : Nat
  zoneSetId : String
  nodes : List VNode
  edges : List VEdge
deriving DecidableEq, Repr

/-- The state message wrapped by the `State` class (`vda5050_msgs::State`),
restricted to the fields the embedded member functions read or write.
`interactionZones` is present because the message carries it, though
`SetInteractionZones` (whose store into it is commented out in the source)
never writes it. -/
structure VState where
  orderId : String
  orderUpdateId : Nat
  lastNodeId : String
  lastNodeSequenceId : Nat
  nodeStates : List NodeState
  edgeStates : List EdgeState
  actionStates : List ActionState
  errors : List VError
  batteryCharge : ℚ
  localizationScore : ℚ
  interactionZones : List InteractionZone
deriving DecidableEq, Repr

/-- One `ROS_ERROR_STREAM` call site of the embedded code. -/
inductive LogEvent where
  | orderIdMismatch (receivedId currentId : String)
  | lastNodeNotFound
  | lastEdgeNotFound
  | actionNotFound (actionId : String)
deriving DecidableEq, Repr

/-! ## Telemetry setters with chained range guards (`State.h` 228–234, 326–332)

The C++ guards read `if (0.0 <= battery_charge <= 100.0)` and
`if (0.0 <= score <= 1.0)`.  C++ parses these left-associatively: the
boolean result of the first comparison is converted to `0.0` or `1.0` and
that value is compared against the upper bound.  `cppChainedLe` embeds
exactly that semantics.  (For a NaN input the first comparison is false, so
the converted value is `0.0` and the guard still holds; the `ℚ` model
therefore covers every double input's branch behaviour.) -/

/-- The C++ chained comparison `a <= x <= b`: the bool `a <= x` converts to
`1` or `0`, which is then compared with `b`. -/
def cppChainedLe (a x b : ℚ) : Bool :=
  decide ((if a ≤ x then (1 : ℚ) else 0) ≤ b)

/-- Embeds `State::SetBatteryCharge` (`State.h` 228–234). -/
def SetBatteryCharge (s : VState) (battery_charge : ℚ) : VState × Bool :=
  if cppChainedLe 0 battery_charge 100 then
    ({ s with batteryCharge := battery_charge }, true)
  else (s, false)

/-- Embeds `State::SetLocalizationScore` (`State.h` 326–332). -/
def SetLocalizationScore (s : VState) (score : ℚ) : VState × Bool :=
  if cppChainedLe 0 score 1 then
    ({ s with localizationScore := score }, true)
  else (s, false)

/-! ## `State::SetInteractionZones` (`State.h` 405–413)

The body copies the argument, normalizes every nonzero `zoneStatus` to `1`
on the copy, and the only line that would store the copy into the state
message is commented out. -/

/-- Embeds `State::SetInteractionZones`: the local normalized copy is
computed, but the store into `state.interactionZones` is commented out in
the source, so the state is returned unchanged. -/
def SetInteractionZones (s : VState) (interaction_zones : List InteractionZone) : VState :=
  let zones := interaction_zones.map
    (fun z => if z.zoneStatus ≠ 0 then { z with zoneStatus := 1 } else z)
  id (fun _ => s) zones

/-! ## Error ledger (`State::AppendError`, declared at `State.h` 77–83)

The implementation file of `State::AppendError` is not among the shown
sources; only its declaration and doc comment are.  The function is
modelled from the spec. -/

/-- Modelled from the spec: `State::AppendError` (implementation not among
the shown sources).  "Appends the provided error to the list of errors in
the state message.  If an error type already exists, it is replaced with the
provided error"; the error ledger is keyed by `errorType`, append replaces
any existing entry of the same type (last-write-wins, not a multiset). -/
def AppendError (errors : List VError) (e : VError) : List VError :=
  errors.filter (fun x => x.errorType ≠ e.errorType) ++ [e]

/-! ## Order classification and update (`Order.h` 26–48)

`Order::AcceptNewOrder`, `Order::UpdateOrder` and the caller-side
classification of incoming order messages are declared in
`src/include/models/Order.h` but their implementation file is not among the
shown sources; they are modelled from the spec. -/

/-- Modelled from the spec: `Order::AcceptNewOrder` (implementation not
among the shown sources) "unconditionally replaces `orderId`,
`orderUpdateId`, `zoneSetId`, nodes, edges with those of the candidate". -/
def acceptNewOrder (_current : VOrder) (candidate : VOrder) : VOrder :=
  candidate

/-- Modelled from the spec: `Order::UpdateOrder` (implementation not among
the shown sources) "appends the update's nodes/edges onto the current
order's tail, raising `orderUpdateId` to the update's". -/
def orderApplyUpdate (o : VOrder) (update : VOrder) : VOrder :=
  { o with
    nodes := o.nodes ++ update.nodes
    edges := o.edges ++ update.edges
    orderUpdateId := update.orderUpdateId }

/-- Modelled from the spec: the classification of an incoming order message
on the current order (declared through `Order::AcceptNewOrder` /
`Order::UpdateOrder` in `Order.h`, implementation not among the shown
sources).  "An incoming order message is an update iff its `orderId` equals
the current order's `orderId` AND its `orderUpdateId` is strictly greater;
equal/lower update ids on a matching orderId are duplicate/stale and must be
rejected without mutating state"; a different `orderId` is a brand-new
order. -/
def handleOrderMsg (o : VOrder) (m : VOrder) : VOrder :=
  if m.orderId = o.orderId then
    if m.orderUpdateId > o.orderUpdateId then orderApplyUpdate o m
    else o
  else acceptNewOrder o m

/-! ## Order-update merge into the state (`State.h` 53–68)

`State::ValidateUpdateBase` and `State::UpdateOrder` are declared in
`State.h` (53–59 and 61–68) but their implementation file is not among the
shown sources; they are modelled from the spec. -/

/-- Embeds `State::NodeToNodeState` (declared `State.h` 522–528): a fresh node
state derived from an order node, `released` copied. -/
def NodeToNodeState (n : VNode) : NodeState :=
  ⟨n.nodeId, n.sequenceId, n.released⟩

/-- Embeds `State::EdgeToEdgeState` (declared `State.h` 530–536): a fresh edge
state derived from an order edge, `released` copied. -/
def EdgeToEdgeState (e : VEdge) : EdgeState :=
  ⟨e.edgeId, e.sequenceId, e.released⟩

/-- Embeds `State::ActionToActionState` (declared `State.h` 538–544): a fresh
action state in the default not-yet-started status, base/horizon membership
taken from the node or edge the action is attached to. -/
def ActionToActionState (released : Bool) (a : VAction) : ActionState :=
  ⟨a.actionId, "WAITING", "", released⟩

/-- All fresh action states derived from an order message's node and edge
actions. -/
def orderActionStates (u : VOrder) : List ActionState :=
  u.nodes.flatMap (fun n => n.actions.map (ActionToActionState n.released)) ++
    u.edges.flatMap (fun e => e.actions.map (ActionToActionState e.released))

/-- Modelled from the spec: `State::ValidateUpdateBase` (implementation not
among the shown sources) "checks if the order update correctly continues on
the previous order": the first node of the update must equal — `nodeId` and
`sequenceId` — the current `lastNodeId`/`lastNodeSequenceId`; an update with
no first node cannot graft onto the boundary. -/
def ValidateUpdateBase (s : VState) (u : VOrder) : Bool :=
  match u.nodes.head? with
  | some n => decide (n.nodeId = s.lastNodeId) && decide (n.sequenceId = s.lastNodeSequenceId)
  | none => false

/-- Modelled from the spec: `State::UpdateOrder` (implementation not among
the shown sources) "discards all unreleased (horizon) node/edge/action
states and appends fresh state entries derived from the update's new
nodes/edges/actions, preserving all released (base) state entries
untouched"; the order update id is raised to the update's. -/
def UpdateOrderState (s : VState) (u : VOrder) : VState :=
  { s with
    orderUpdateId := u.orderUpdateId
    nodeStates := s.nodeStates.filter (fun ns => ns.released) ++ u.nodes.map NodeToNodeState
    edgeStates := s.edgeStates.filter (fun es => es.released) ++ u.edges.map EdgeToEdgeState
    actionStates := s.actionStates.filter (fun a => a.released) ++ orderActionStates u }

/-- Modelled from the spec: the update path on the state — `UpdateOrder` is
applied only after `ValidateUpdateBase` succeeds; "mismatch is a hard
rejection of the whole update". -/
def TryUpdateOrder (s : VState) (u : VOrder) : VState :=
  if ValidateUpdateBase s u then UpdateOrderState s u else s

/-! ## `State::SetActionState` (`State.h` 479–505) and
`State::SetOrderState` (`State.h` 420–473)

These member functions are implemented inline in `State.h` and are embedded
directly.  `SetOrderState`'s body has three consecutive phases — node-state
trimming, edge-state trimming, action-state merging — embedded as
`nodeSection`, `edgeSection` and `actionSection`, sequenced exactly as in
the source.  The C++ reads `state.nodeStates.begin()->sequenceId` without
first checking that the vector is nonempty (it only checks the reported
list); `headSeqN`/`headSeqE` return `0` for the empty list, and every
theorem that touches this path assumes the list nonempty, so the value
chosen for the empty case never matters. -/

/-- Sequence id of the first list entry (`begin()->sequenceId`). -/
def headSeqN (l : List NodeState) : Nat :=
  (l.head?.map NodeState.sequenceId).getD 0

/-- Sequence id of the first list entry (`begin()->sequenceId`). -/
def headSeqE (l : List EdgeState) : Nat :=
  (l.head?.map EdgeState.sequenceId).getD 0

/-- Replace the first entry carrying `action_id` — `*find_if(...)` — with
the given status and result description, leaving every other entry
unchanged. -/
def updateFirstActionState (l : List ActionState) (action_id action_status result_description : String) :
    List ActionState :=
  match l with
  | [] => []
  | a :: rest =>
    if a.actionId = action_id then
      { a with actionStatus := action_status, resultDescription := result_description } :: rest
    else a :: updateFirstActionState rest action_id action_status result_description

/-- Embeds `State::SetActionState(vda5050_msgs::ActionState)` (`State.h`
479–489): find the matching action state by id and update its status and
result description; a missing id is logged. -/
def SetActionStateMsg (s : VState) (updated_as : ActionState) : VState × List LogEvent :=
  if s.actionStates.any (fun a => a.actionId = updated_as.actionId) then
    let l := updateFirstActionState s.actionStates updated_as.actionId
      updated_as.actionStatus updated_as.resultDescription
    ({ s with actionStates := l }, [])
  else (s, [LogEvent.actionNotFound updated_as.actionId])

/-- Embeds `State::SetActionState(std::string, std::string, std::string)`
(`State.h` 495–505): same body over the unbundled arguments. -/
def SetActionStateStr (s : VState) (action_id action_status result_description : String) :
    VState × List LogEvent :=
  if s.actionStates.any (fun a => a.actionId = action_id) then
    let l := updateFirstActionState s.actionStates action_id action_status result_description
    ({ s with actionStates := l }, [])
  else (s, [LogEvent.actionNotFound action_id])

/-- Node-state phase of `SetOrderState` (`State.h` 426–451). -/
def nodeSection (s os : VState) : VState × List LogEvent :=
  if os.nodeStates.isEmpty then
    ({ s with lastNodeId := os.lastNodeId, lastNodeSequenceId := os.lastNodeSequenceId, nodeStates := [] }, [])
  else if os.lastNodeSequenceId ≠ s.lastNodeSequenceId ∨
      headSeqN s.nodeStates ≠ headSeqN os.nodeStates then
    if headSeqN s.nodeStates = os.lastNodeSequenceId then
      ({ s with nodeStates := s.nodeStates.tail, lastNodeId := os.lastNodeId, lastNodeSequenceId := os.lastNodeSequenceId }, [])
    else if s.nodeStates.any (fun ns => ns.sequenceId = s.lastNodeSequenceId) then
      let l := s.nodeStates.dropWhile (fun ns => ns.sequenceId ≠ s.lastNodeSequenceId)
      ({ s with nodeStates := l, lastNodeId := os.lastNodeId, lastNodeSequenceId := os.lastNodeSequenceId }, [])
    else (s, [LogEvent.lastNodeNotFound])
  else (s, [])

/-- Edge-state phase of `SetOrderState` (`State.h` 453–469). -/
def edgeSection (s os : VState) : VState × List LogEvent :=
  if s.edgeStates.isEmpty then (s, [])
  else if os.edgeStates.isEmpty then ({ s with edgeStates := [] }, [])
  else if headSeqE s.edgeStates ≠ headSeqE os.edgeStates then
    if s.edgeStates.any (fun es => es.sequenceId = headSeqE os.edgeStates) then
      let l := s.edgeStates.dropWhile (fun es => es.sequenceId ≠ headSeqE os.edgeStates)
      ({ s with edgeStates := l }, [])
    else (s, [LogEvent.lastEdgeNotFound])
  else (s, [])

/-- Action-state phase of `SetOrderState` (`State.h` 470–471): every
reported action state is merged through `SetActionState` in order. -/
def actionSection : VState → List ActionState → VState × List LogEvent
  | s, [] => (s, [])
  | s, u :: rest =>
    let r := SetActionStateMsg s u
    let rr := actionSection r.1 rest
    (rr.1, r.2 ++ rr.2)

/-- Embeds `State::SetOrderState` (`State.h` 420–473): reject on `orderId`
mismatch, otherwise run the node, edge and action phases in sequence on the
state. -/
def SetOrderState (s : VState) (os : VState) : VState × List LogEvent :=
  if s.orderId ≠ os.orderId then (s, [LogEvent.orderIdMismatch os.orderId s.orderId])
  else
    let r1 := nodeSection s os
    let r2 := edgeSection r1.1 os
    let r3 := actionSection r2.1 os.actionStates
    (r3.1, r1.2 ++ r2.2 ++ r3.2)

/-- Concrete reconciliation scenario: current state whose `nodeStates` hold
neither the reported nor the current boundary sequence id. -/
def exC3s : VState :=
  ⟨"o1", 1, "n0", 0, [⟨"n2", 2, true⟩], [⟨"e1", 1, true⟩, ⟨"e3", 3, true⟩],
    [⟨"a1", "RUNNING", "", true⟩], [], 0, 0, []⟩

/-- Reported progress for `exC3s`: advanced boundary that cannot be located
in the current `nodeStates`, with a trimmable edge list and a finished
action. -/
def exC3os : VState :=
  ⟨"o1", 1, "n4", 4, [⟨"n6", 6, true⟩], [⟨"e3", 3, true⟩],
    [⟨"a1", "FINISHED", "done", true⟩], [], 0, 0, []⟩

/-- Concrete reconciliation scenario: the head of `nodeStates` no longer
matches the reported head, and the node carrying the current (old) boundary
sequence id sits in the middle of the list. -/
def exC4s : VState :=
  ⟨"o1", 1, "n2", 2, [⟨"n0", 0, true⟩, ⟨"n2", 2, true⟩, ⟨"n4", 4, true⟩],
    [], [], [], 0, 0, []⟩

/-- Reported progress for `exC4s`: same boundary sequence id, head moved
past the boundary node. -/
def exC4os : VState :=
  ⟨"o1", 1, "n2", 2, [⟨"n4", 4, true⟩], [], [], [], 0, 0, []⟩

/-! ## Theorems -/

/-- C10: for every input, `SetInteractionZones` leaves the `State` object
completely unchanged: the normalization happens only on a local copy of the
argument and the assignment of that copy into the state is commented out. -/
theorem C10_setInteractionZones_no_effect (s : VState) (zs : List InteractionZone) :
    SetInteractionZones s zs = s := rfl

/-- C9: the chained range guards of `SetBatteryCharge` and
`SetLocalizationScore` are always true: for every input, also outside the
documented range, the setter assigns the field and returns `true`; the
`false` branch is unreachable. -/
theorem C9_chained_guards_always_true (s : VState) (x : ℚ) :
    SetBatteryCharge s x = ({ s with batteryCharge := x }, true) ∧
    SetLocalizationScore s x = ({ s with localizationScore := x }, true) := by
  constructor
  · show (if cppChainedLe 0 x 100 then _ else _) = _
    have h : cppChainedLe 0 x 100 = true := by
      unfold cppChainedLe
      by_cases h0 : (0 : ℚ) ≤ x <;> simp [h0]
    rw [h]
    rfl
  · show (if cppChainedLe 0 x 1 then _ else _) = _
    have h : cppChainedLe 0 x 1 = true := by
      unfold cppChainedLe
      by_cases h0 : (0 : ℚ) ≤ x <;> simp [h0]
    rw [h]
    rfl

/-- C8: calling `AppendError` twice with the same `errorType` but different
descriptions leaves exactly one entry of that type in the errors list,
carrying the description of the second (latest) call: append replaces any
existing entry of the same type instead of accumulating duplicates. -/
theorem C8_appendError_last_write_wins (errors : List VError) (e1 e2 : VError)
    (ht : e1.errorType = e2.errorType) (hd : e1.errorDescription ≠ e2.errorDescription) :
    (AppendError (AppendError errors e1) e2).filter
      (fun x => x.errorType = e2.errorType) = [e2] := by
  have hfilter : ∀ l : List VError,
      (l.filter (fun x => x.errorType ≠ e2.errorType)).filter
        (fun x => x.errorType = e2.errorType) = [] := by
    intro l
    rw [List.filter_filter]
    apply List.filter_eq_nil_iff.mpr
    intro a _
    by_cases hx : a.errorType = e2.errorType <;> simp [hx]
  show ((AppendError errors e1).filter (fun x => x.errorType ≠ e2.errorType)
      ++ [e2]).filter (fun x => x.errorType = e2.errorType) = [e2]
  rw [List.filter_append, hfilter (AppendError errors e1)]
  simp [List.filter]

/-- Witness for C8 at a concrete ledger. -/
theorem C8_appendError_last_write_wins_witness :
    (AppendError (AppendError
        [⟨"orderError", "old"⟩, ⟨"validationError", "v"⟩]
        ⟨"orderError", "first"⟩) ⟨"orderError", "second"⟩).filter
      (fun x => x.errorType = "orderError") = [⟨"orderError", "second"⟩] :=
  C8_appendError_last_write_wins
    [⟨"orderError", "old"⟩, ⟨"validationError", "v"⟩]
    ⟨"orderError", "first"⟩ ⟨"orderError", "second"⟩ rfl (by decide)

/-- C6: an incoming order message with the current `orderId` and an
`orderUpdateId` lower than or equal to the one already applied is rejected
as stale without mutating the order (so arrival order of stale messages is
irrelevant); a strictly greater `orderUpdateId` on a matching `orderId` is
applied as an update. -/
theorem C6_stale_updates_rejected (o m : VOrder) (h : m.orderId = o.orderId) :
    (m.orderUpdateId ≤ o.orderUpdateId → handleOrderMsg o m = o) ∧
    (m.orderUpdateId > o.orderUpdateId → handleOrderMsg o m = orderApplyUpdate o m) := by
  constructor
  · intro hle
    unfold handleOrderMsg
    rw [if_pos h, if_neg (by omega)]
  · intro hgt
    unfold handleOrderMsg
    rw [if_pos h, if_pos hgt]

/-- Witness for C6: a duplicate of update id 2 is a no-op, and update id 3
is applied. -/
theorem C6_stale_updates_rejected_witness :
    (handleOrderMsg ⟨"o1", 2, "z", [], []⟩ ⟨"o1", 2, "z", [⟨"n9", 8, true, []⟩], []⟩ =
      ⟨"o1", 2, "z", [], []⟩) ∧
    (handleOrderMsg ⟨"o1", 2, "z", [], []⟩ ⟨"o1", 3, "z", [⟨"n9", 8, true, []⟩], []⟩ =
      orderApplyUpdate ⟨"o1", 2, "z", [], []⟩ ⟨"o1", 3, "z", [⟨"n9", 8, true, []⟩], []⟩) := by
  constructor
  · exact (C6_stale_updates_rejected ⟨"o1", 2, "z", [], []⟩
      ⟨"o1", 2, "z", [⟨"n9", 8, true, []⟩], []⟩ rfl).1 (by decide)
  · exact (C6_stale_updates_rejected ⟨"o1", 2, "z", [], []⟩
      ⟨"o1", 3, "z", [⟨"n9", 8, true, []⟩], []⟩ rfl).2 (by decide)

/-- C1: an order update whose first node does not equal — both `nodeId` and
`sequenceId` — the current `lastNodeId`/`lastNodeSequenceId` is rejected as
a whole by `ValidateUpdateBase`, and the state after the rejected update is
identical to the state before the call. -/
theorem C1_validateUpdateBase_rejects_mismatch (s : VState) (u : VOrder) (n : VNode)
    (hn : u.nodes.head? = some n)
    (hmm : ¬(n.nodeId = s.lastNodeId ∧ n.sequenceId = s.lastNodeSequenceId)) :
    ValidateUpdateBase s u = false ∧ TryUpdateOrder s u = s := by
  have hv : ValidateUpdateBase s u = false := by
    unfold ValidateUpdateBase
    rw [hn]
    by_cases h1 : n.nodeId = s.lastNodeId
    · by_cases h2 : n.sequenceId = s.lastNodeSequenceId
      · exact absurd ⟨h1, h2⟩ hmm
      · simp [h2]
    · simp [h1]
  exact ⟨hv, by unfold TryUpdateOrder; rw [hv]; simp⟩

/-- Witness for C1: an update whose head node carries a stale sequence id is
rejected and the state is unchanged. -/
theorem C1_validateUpdateBase_rejects_mismatch_witness :
    ValidateUpdateBase ⟨"o1", 1, "n2", 2, [], [], [], [], 0, 0, []⟩
        ⟨"o1", 2, "z", [⟨"n0", 0, true, []⟩], []⟩ = false ∧
      TryUpdateOrder ⟨"o1", 1, "n2", 2, [], [], [], [], 0, 0, []⟩
        ⟨"o1", 2, "z", [⟨"n0", 0, true, []⟩], []⟩ =
        ⟨"o1", 1, "n2", 2, [], [], [], [], 0, 0, []⟩ :=
  C1_validateUpdateBase_rejects_mismatch _ _ ⟨"n0", 0, true, []⟩ rfl (by decide)

/-- C2: for every accepted order update, `UpdateOrderState` never removes a
node/edge/action state with `released = true`, removes every
node/edge/action state with `released = false` that is not present in the
update, and appends the fresh state entries derived from the update's nodes,
edges and actions after the untouched released entries. -/
theorem C2_updateOrder_horizon_replacement (s : VState) (u : VOrder) :
    ((UpdateOrderState s u).nodeStates =
        s.nodeStates.filter (fun ns => ns.released) ++ u.nodes.map NodeToNodeState ∧
      (UpdateOrderState s u).edgeStates =
        s.edgeStates.filter (fun es => es.released) ++ u.edges.map EdgeToEdgeState ∧
      (UpdateOrderState s u).actionStates =
        s.actionStates.filter (fun a => a.released) ++ orderActionStates u) ∧
    (∀ ns ∈ s.nodeStates, ns.released = true → ns ∈ (UpdateOrderState s u).nodeStates) ∧
    (∀ ns ∈ s.nodeStates, ns.released = false → ns ∉ u.nodes.map NodeToNodeState →
      ns ∉ (UpdateOrderState s u).nodeStates) ∧
    (∀ es ∈ s.edgeStates, es.released = true → es ∈ (UpdateOrderState s u).edgeStates) ∧
    (∀ es ∈ s.edgeStates, es.released = false → es ∉ u.edges.map EdgeToEdgeState →
      es ∉ (UpdateOrderState s u).edgeStates) ∧
    (∀ a ∈ s.actionStates, a.released = true → a ∈ (UpdateOrderState s u).actionStates) ∧
    (∀ a ∈ s.actionStates, a.released = false → a ∉ orderActionStates u →
      a ∉ (UpdateOrderState s u).actionStates) := by
  refine ⟨⟨rfl, rfl, rfl⟩, ?_, ?_, ?_, ?_, ?_, ?_⟩
  · intro ns hmem hrel
    exact List.mem_append_left _ (List.mem_filter.mpr ⟨hmem, hrel⟩)
  · intro ns hmem hrel hnot hin
    rcases List.mem_append.mp hin with hl | hr
    · have := (List.mem_filter.mp hl).2
      rw [hrel] at this
      exact Bool.false_ne_true this
    · exact hnot hr
  · intro es hmem hrel
    exact List.mem_append_left _ (List.mem_filter.mpr ⟨hmem, hrel⟩)
  · intro es hmem hrel hnot hin
    rcases List.mem_append.mp hin with hl | hr
    · have := (List.mem_filter.mp hl).2
      rw [hrel] at this
      exact Bool.false_ne_true this
    · exact hnot hr
  · intro a hmem hrel
    exact List.mem_append_left _ (List.mem_filter.mpr ⟨hmem, hrel⟩)
  · intro a hmem hrel hnot hin
    rcases List.mem_append.mp hin with hl | hr
    · have := (List.mem_filter.mp hl).2
      rw [hrel] at this
      exact Bool.false_ne_true this
    · exact hnot hr

/-- Witness for C2 at a concrete state and update: the released node state
survives, the unreleased one not present in the update is removed. -/
theorem C2_updateOrder_horizon_replacement_witness :
    (⟨"n0", 0, true⟩ : NodeState) ∈
      (UpdateOrderState
        ⟨"o1", 0, "n0", 0, [⟨"n0", 0, true⟩, ⟨"n1", 2, false⟩],
          [⟨"e0", 1, false⟩], [⟨"a0", "RUNNING", "", false⟩], [], 0, 0, []⟩
        ⟨"o1", 1, "z", [⟨"n1", 2, true, [⟨"a1"⟩]⟩, ⟨"n2", 4, false, []⟩],
          [⟨"e1", 3, true, []⟩]⟩).nodeStates ∧
    (⟨"n1", 2, false⟩ : NodeState) ∉
      (UpdateOrderState
        ⟨"o1", 0, "n0", 0, [⟨"n0", 0, true⟩, ⟨"n1", 2, false⟩],
          [⟨"e0", 1, false⟩], [⟨"a0", "RUNNING", "", false⟩], [], 0, 0, []⟩
        ⟨"o1", 1, "z", [⟨"n1", 2, true, [⟨"a1"⟩]⟩, ⟨"n2", 4, false, []⟩],
          [⟨"e1", 3, true, []⟩]⟩).nodeStates := by
  constructor
  · exact (C2_updateOrder_horizon_replacement _ _).2.1 _ (by decide) (by decide)
  · exact (C2_updateOrder_horizon_replacement _ _).2.2.1 _ (by decide) (by decide) (by decide)

/-- The function `SetActionStateMsg` touches only `actionStates`. -/
theorem setActionStateMsg_frame (s : VState) (u : ActionState) :
    (SetActionStateMsg s u).1.nodeStates = s.nodeStates ∧
    (SetActionStateMsg s u).1.edgeStates = s.edgeStates ∧
    (SetActionStateMsg s u).1.lastNodeId = s.lastNodeId ∧
    (SetActionStateMsg s u).1.lastNodeSequenceId = s.lastNodeSequenceId := by
  unfold SetActionStateMsg
  split <;> exact ⟨rfl, rfl, rfl, rfl⟩

/-- The action phase touches only `actionStates`. -/
theorem actionSection_frame (l : List ActionState) (s : VState) :
    (actionSection s l).1.nodeStates = s.nodeStates ∧
    (actionSection s l).1.edgeStates = s.edgeStates ∧
    (actionSection s l).1.lastNodeId = s.lastNodeId ∧
    (actionSection s l).1.lastNodeSequenceId = s.lastNodeSequenceId := by
  induction l generalizing s with
  | nil => exact ⟨rfl, rfl, rfl, rfl⟩
  | cons u rest ih =>
    have hframe := setActionStateMsg_frame s u
    have hrest := ih (SetActionStateMsg s u).1
    exact ⟨hrest.1.trans hframe.1, hrest.2.1.trans hframe.2.1,
      hrest.2.2.1.trans hframe.2.2.1, hrest.2.2.2.trans hframe.2.2.2⟩

/-- The edge phase touches only `edgeStates`. -/
theorem edgeSection_frame (s os : VState) :
    (edgeSection s os).1.nodeStates = s.nodeStates ∧
    (edgeSection s os).1.actionStates = s.actionStates ∧
    (edgeSection s os).1.lastNodeId = s.lastNodeId ∧
    (edgeSection s os).1.lastNodeSequenceId = s.lastNodeSequenceId := by
  unfold edgeSection
  split
  · exact ⟨rfl, rfl, rfl, rfl⟩
  · split
    · exact ⟨rfl, rfl, rfl, rfl⟩
    · split
      · split <;> exact ⟨rfl, rfl, rfl, rfl⟩
      · exact ⟨rfl, rfl, rfl, rfl⟩

/-- On a matching `orderId`, the node-progress outcome of `SetOrderState` is
the outcome of its node phase: the edge and action phases never write
`nodeStates`, `lastNodeId` or `lastNodeSequenceId`, and the log is the
concatenation of the three phase logs. -/
theorem setOrderState_decompose (s os : VState) (h : s.orderId = os.orderId) :
    (SetOrderState s os).1.nodeStates = (nodeSection s os).1.nodeStates ∧
    (SetOrderState s os).1.lastNodeId = (nodeSection s os).1.lastNodeId ∧
    (SetOrderState s os).1.lastNodeSequenceId = (nodeSection s os).1.lastNodeSequenceId ∧
    (SetOrderState s os).2 =
      (nodeSection s os).2 ++ (edgeSection (nodeSection s os).1 os).2 ++
        (actionSection (edgeSection (nodeSection s os).1 os).1 os.actionStates).2 := by
  unfold SetOrderState
  rw [if_neg (by simp [h])]
  have he := edgeSection_frame (nodeSection s os).1 os
  have ha := actionSection_frame os.actionStates (edgeSection (nodeSection s os).1 os).1
  exact ⟨ha.1.trans he.1, ha.2.2.1.trans he.2.2.1, ha.2.2.2.trans he.2.2.2, rfl⟩

/-- C5: a reported state whose `orderId` differs from the active one is
rejected as a whole and the mismatch is logged; `nodeStates`, `edgeStates`,
`actionStates`, `lastNodeId` and `lastNodeSequenceId` are all left
unchanged (the entire state is returned as it was). -/
theorem C5_orderId_mismatch_rejected (s os : VState) (h : s.orderId ≠ os.orderId) :
    SetOrderState s os = (s, [LogEvent.orderIdMismatch os.orderId s.orderId]) := by
  unfold SetOrderState
  rw [if_pos h]

/-- Witness for C5: a report for order `o2` against active order `o1` leaves
the state untouched and logs the mismatch. -/
theorem C5_orderId_mismatch_rejected_witness :
    SetOrderState ⟨"o1", 1, "n0", 0, [⟨"n2", 2, true⟩], [], [], [], 0, 0, []⟩
        ⟨"o2", 1, "n4", 4, [], [], [], [], 0, 0, []⟩ =
      (⟨"o1", 1, "n0", 0, [⟨"n2", 2, true⟩], [], [], [], 0, 0, []⟩,
        [LogEvent.orderIdMismatch "o2" "o1"]) :=
  C5_orderId_mismatch_rejected _ _ (by decide)

/-- Node phase, boundary-not-found branch: neither the reported boundary at
the head nor the current boundary anywhere in `nodeStates` — logs and leaves
node progress as it was. -/
theorem nodeSection_notFound (s os : VState) (h1 : os.nodeStates ≠ [])
    (h2 : os.lastNodeSequenceId ≠ s.lastNodeSequenceId ∨
      headSeqN s.nodeStates ≠ headSeqN os.nodeStates)
    (h3 : headSeqN s.nodeStates ≠ os.lastNodeSequenceId)
    (h4 : s.nodeStates.any (fun ns => ns.sequenceId = s.lastNodeSequenceId) = false) :
    nodeSection s os = (s, [LogEvent.lastNodeNotFound]) := by
  unfold nodeSection
  rw [if_neg (by simp [List.isEmpty_iff, h1]), if_pos h2, if_neg h3, if_neg (by simp [h4])]

/-- Node phase, head-is-boundary branch: the head of `nodeStates` carries
the reported `lastNodeSequenceId` — it is removed and the boundary fields
take the reported values. -/
theorem nodeSection_headBoundary (s os : VState) (h1 : os.nodeStates ≠ [])
    (h2 : os.lastNodeSequenceId ≠ s.lastNodeSequenceId ∨
      headSeqN s.nodeStates ≠ headSeqN os.nodeStates)
    (h3 : headSeqN s.nodeStates = os.lastNodeSequenceId) :
    nodeSection s os =
      ({ s with nodeStates := s.nodeStates.tail,
                lastNodeId := os.lastNodeId,
                lastNodeSequenceId := os.lastNodeSequenceId }, []) := by
  unfold nodeSection
  rw [if_neg (by simp [List.isEmpty_iff, h1]), if_pos h2, if_pos h3]

/-- Node phase, old-boundary-found branch: the head does not carry the
reported boundary, but some entry carries the current (pre-call)
`lastNodeSequenceId` — entries strictly before the first such entry are
dropped and the boundary fields take the reported values. -/
theorem nodeSection_oldBoundaryFound (s os : VState) (h1 : os.nodeStates ≠ [])
    (h2 : os.lastNodeSequenceId ≠ s.lastNodeSequenceId ∨
      headSeqN s.nodeStates ≠ headSeqN os.nodeStates)
    (h3 : headSeqN s.nodeStates ≠ os.lastNodeSequenceId)
    (h4 : s.nodeStates.any (fun ns => ns.sequenceId = s.lastNodeSequenceId) = true) :
    nodeSection s os =
      ({ s with nodeStates := s.nodeStates.dropWhile (fun ns => ns.sequenceId ≠ s.lastNodeSequenceId),
                lastNodeId := os.lastNodeId,
                lastNodeSequenceId := os.lastNodeSequenceId }, []) := by
  unfold nodeSection
  rw [if_neg (by simp [List.isEmpty_iff, h1]), if_pos h2, if_neg h3, if_pos h4]

/-- Counterexample to C3 as stated: at `exC3s`/`exC3os` the `orderId`
matches, node progress has advanced, no entry of the current `nodeStates`
carries the expected boundary sequence id (neither the reported nor the
current one) — yet the call is not aborted as a whole: the edge states are
still trimmed and the reported action state is still merged. -/
theorem C3_counterexample_sync_not_aborted :
    exC3s.orderId = exC3os.orderId ∧
    exC3os.nodeStates ≠ [] ∧
    exC3os.lastNodeSequenceId ≠ exC3s.lastNodeSequenceId ∧
    headSeqN exC3s.nodeStates ≠ exC3os.lastNodeSequenceId ∧
    exC3s.nodeStates.any (fun ns => ns.sequenceId = exC3os.lastNodeSequenceId) = false ∧
    exC3s.nodeStates.any (fun ns => ns.sequenceId = exC3s.lastNodeSequenceId) = false ∧
    (SetOrderState exC3s exC3os).1.edgeStates ≠ exC3s.edgeStates ∧
    (SetOrderState exC3s exC3os).1.actionStates ≠ exC3s.actionStates := by
  decide

/-- C3 as amended: when the expected boundary node cannot be located, the
node-progress part of the state is left intact — no node state is removed
and `lastNodeId`/`lastNodeSequenceId` keep their values — and the failure is
logged; the edge-trimming and action-merging phases of the same call still
proceed. -/
theorem C3_boundary_not_found_nodes_intact (s os : VState)
    (h0 : s.orderId = os.orderId) (h1 : os.nodeStates ≠ [])
    (h2 : os.lastNodeSequenceId ≠ s.lastNodeSequenceId ∨
      headSeqN s.nodeStates ≠ headSeqN os.nodeStates)
    (h3 : headSeqN s.nodeStates ≠ os.lastNodeSequenceId)
    (h4 : s.nodeStates.any (fun ns => ns.sequenceId = s.lastNodeSequenceId) = false) :
    (SetOrderState s os).1.nodeStates = s.nodeStates ∧
    (SetOrderState s os).1.lastNodeId = s.lastNodeId ∧
    (SetOrderState s os).1.lastNodeSequenceId = s.lastNodeSequenceId ∧
    LogEvent.lastNodeNotFound ∈ (SetOrderState s os).2 := by
  have hdec := setOrderState_decompose s os h0
  have hn := nodeSection_notFound s os h1 h2 h3 h4
  refine ⟨?_, ?_, ?_, ?_⟩
  · rw [hdec.1, hn]
  · rw [hdec.2.1, hn]
  · rw [hdec.2.2.1, hn]
  · rw [hdec.2.2.2, hn]
    exact List.mem_append_left _ (List.mem_append_left _ (List.mem_singleton.mpr rfl))

/-- Witness for the amended C3 at `exC3s`/`exC3os`. -/
theorem C3_boundary_not_found_nodes_intact_witness :
    (SetOrderState exC3s exC3os).1.nodeStates = exC3s.nodeStates ∧
    (SetOrderState exC3s exC3os).1.lastNodeId = exC3s.lastNodeId ∧
    (SetOrderState exC3s exC3os).1.lastNodeSequenceId = exC3s.lastNodeSequenceId ∧
    LogEvent.lastNodeNotFound ∈ (SetOrderState exC3s exC3os).2 :=
  C3_boundary_not_found_nodes_intact exC3s exC3os rfl (by decide) (by decide) (by decide)
    (by decide)

/-- Counterexample to C4 as stated: at `exC4s`/`exC4os` the `orderId`
matches, the reported `nodeStates` are nonempty, and the head of the current
`nodeStates` no longer matches the reported head — yet the front of
`nodeStates` is not trimmed up to and including the new boundary node: the
node state carrying the reported `lastNodeSequenceId` is still in the list
(the code searches for the current, pre-call boundary id and erases strictly
before it). -/
theorem C4_counterexample_boundary_node_kept :
    exC4s.orderId = exC4os.orderId ∧
    exC4os.nodeStates ≠ [] ∧
    headSeqN exC4s.nodeStates ≠ headSeqN exC4os.nodeStates ∧
    (SetOrderState exC4s exC4os).1.nodeStates =
      [⟨"n2", 2, true⟩, ⟨"n4", 4, true⟩] ∧
    (SetOrderState exC4s exC4os).1.nodeStates.any
      (fun ns => ns.sequenceId = exC4os.lastNodeSequenceId) = true := by
  decide

/-- C4 as amended: under a matching `orderId`, nonempty reported
`nodeStates`, and advanced node progress (reported `lastNodeSequenceId`
differs or the heads differ), `SetOrderState` sets `lastNodeId` and
`lastNodeSequenceId` to the reported values and trims `nodeStates` from the
front as follows: if the current head carries the reported
`lastNodeSequenceId`, exactly the head is removed; otherwise, if some entry
carries the current (pre-call) `lastNodeSequenceId`, every entry strictly
before the first such entry is removed — the boundary entry itself is
kept. -/
theorem C4_node_progress_trim (s os : VState)
    (h0 : s.orderId = os.orderId) (h1 : os.nodeStates ≠ [])
    (h2 : os.lastNodeSequenceId ≠ s.lastNodeSequenceId ∨
      headSeqN s.nodeStates ≠ headSeqN os.nodeStates) :
    (headSeqN s.nodeStates = os.lastNodeSequenceId →
      (SetOrderState s os).1.nodeStates = s.nodeStates.tail ∧
      (SetOrderState s os).1.lastNodeId = os.lastNodeId ∧
      (SetOrderState s os).1.lastNodeSequenceId = os.lastNodeSequenceId) ∧
    (headSeqN s.nodeStates ≠ os.lastNodeSequenceId →
      s.nodeStates.any (fun ns => ns.sequenceId = s.lastNodeSequenceId) = true →
      (SetOrderState s os).1.nodeStates =
        s.nodeStates.dropWhile (fun ns => ns.sequenceId ≠ s.lastNodeSequenceId) ∧
      (SetOrderState s os).1.lastNodeId = os.lastNodeId ∧
      (SetOrderState s os).1.lastNodeSequenceId = os.lastNodeSequenceId) := by
  have hdec := setOrderState_decompose s os h0
  constructor
  · intro h3
    have hn := nodeSection_headBoundary s os h1 h2 h3
    exact ⟨by rw [hdec.1, hn], by rw [hdec.2.1, hn], by rw [hdec.2.2.1, hn]⟩
  · intro h3 h4
    have hn := nodeSection_oldBoundaryFound s os h1 h2 h3 h4
    exact ⟨by rw [hdec.1, hn], by rw [hdec.2.1, hn], by rw [hdec.2.2.1, hn]⟩

/-- Witness for the amended C4 at `exC4s`/`exC4os`: the old-boundary entry
`n2` is kept at the front, the entry before it is dropped, and the boundary
fields take the reported values. -/
theorem C4_node_progress_trim_witness :
    (SetOrderState exC4s exC4os).1.nodeStates =
      exC4s.nodeStates.dropWhile (fun ns => ns.sequenceId ≠ exC4s.lastNodeSequenceId) ∧
    (SetOrderState exC4s exC4os).1.lastNodeId = exC4os.lastNodeId ∧
    (SetOrderState exC4s exC4os).1.lastNodeSequenceId = exC4os.lastNodeSequenceId :=
  (C4_node_progress_trim exC4s exC4os rfl (by decide) (by decide)).2 (by decide) (by decide)

/-- Evaluating `updateFirstActionState` on a list split at the first matching entry:
the prefix of non-matching entries passes through unchanged, the matching
entry gets the new status and result description, the suffix is untouched. -/
theorem updateFirstActionState_split (pre : List ActionState) (a : ActionState)
    (post : List ActionState) (i st d : String)
    (hpre : ∀ b ∈ pre, b.actionId ≠ i) (ha : a.actionId = i) :
    updateFirstActionState (pre ++ a :: post) i st d =
      pre ++ { a with actionStatus := st, resultDescription := d } :: post := by
  induction pre with
  | nil =>
    simp only [List.nil_append]
    unfold updateFirstActionState
    rw [if_pos ha]
  | cons b bs ih =>
    have hb : b.actionId ≠ i := hpre b (List.mem_cons_self b bs)
    simp only [List.cons_append]
    unfold updateFirstActionState
    rw [if_neg hb, ih (fun c hc => hpre c (List.mem_cons_of_mem b hc))]

/-- A list in which some entry matches makes `any` true. -/
theorem anyActionId_of_split (pre : List ActionState) (a : ActionState)
    (post : List ActionState) (i : String) (ha : a.actionId = i) :
    (pre ++ a :: post).any (fun x => x.actionId = i) = true := by
  rw [List.any_eq_true]
  exact ⟨a, List.mem_append_right _ (List.mem_cons_self a post), by simp [ha]⟩

/-- C7: `SetActionState` with an `actionId` present in `actionStates`
updates exactly the (first) entry carrying that id — its `actionStatus` and
`resultDescription` take the given values — and leaves every other entry
and every other state field unchanged, with nothing logged; an absent
`actionId` leaves the state unchanged and is reported as a consistency
error rather than silently ignored; the string overload behaves as the
message overload. -/
theorem C7_setActionState_update_or_report (s : VState) (u : ActionState) :
    (∀ pre a post, s.actionStates = pre ++ a :: post →
      (∀ b ∈ pre, b.actionId ≠ u.actionId) → a.actionId = u.actionId →
      SetActionStateMsg s u =
        ({ s with actionStates :=
            pre ++ { a with actionStatus := u.actionStatus,
                            resultDescription := u.resultDescription } :: post }, [])) ∧
    ((∀ a ∈ s.actionStates, a.actionId ≠ u.actionId) →
      SetActionStateMsg s u = (s, [LogEvent.actionNotFound u.actionId])) ∧
    (∀ i st d, SetActionStateStr s i st d =
      SetActionStateMsg s ⟨i, st, d, false⟩) := by
  refine ⟨?_, ?_, fun i st d => rfl⟩
  · intro pre a post hsplit hpre ha
    unfold SetActionStateMsg
    rw [hsplit, if_pos (anyActionId_of_split pre a post u.actionId ha)]
    rw [updateFirstActionState_split pre a post u.actionId u.actionStatus
      u.resultDescription hpre ha]
  · intro hnone
    have hany : ¬ (s.actionStates.any (fun a => a.actionId = u.actionId) = true) := by
      intro hcontra
      rw [List.any_eq_true] at hcontra
      obtain ⟨a, hmem, heq⟩ := hcontra
      exact hnone a hmem (by simpa using heq)
    unfold SetActionStateMsg
    rw [if_neg hany]

/-- Witness for C7: updating the present id `a1` rewrites exactly that
entry; updating the absent id `a9` leaves the state unchanged and logs. -/
theorem C7_setActionState_update_or_report_witness :
    (SetActionStateMsg
        ⟨"o1", 1, "n0", 0, [], [], [⟨"a0", "RUNNING", "", true⟩, ⟨"a1", "WAITING", "", true⟩],
          [], 0, 0, []⟩
        ⟨"a1", "FINISHED", "ok", true⟩ =
      (⟨"o1", 1, "n0", 0, [], [], [⟨"a0", "RUNNING", "", true⟩, ⟨"a1", "FINISHED", "ok", true⟩],
          [], 0, 0, []⟩, [])) ∧
    (SetActionStateMsg
        ⟨"o1", 1, "n0", 0, [], [], [⟨"a0", "RUNNING", "", true⟩], [], 0, 0, []⟩
        ⟨"a9", "FINISHED", "ok", true⟩ =
      (⟨"o1", 1, "n0", 0, [], [], [⟨"a0", "RUNNING", "", true⟩], [], 0, 0, []⟩,
        [LogEvent.actionNotFound "a9"])) := by
  constructor
  · exact (C7_setActionState_update_or_report
        ⟨"o1", 1, "n0", 0, [], [], [⟨"a0", "RUNNING", "", true⟩, ⟨"a1", "WAITING", "", true⟩],
          [], 0, 0, []⟩
        ⟨"a1", "FINISHED", "ok", true⟩).1
      [⟨"a0", "RUNNING", "", true⟩] ⟨"a1", "WAITING", "", true⟩ [] rfl (by decide) rfl
  · exact (C7_setActionState_update_or_report
        ⟨"o1", 1, "n0", 0, [], [], [⟨"a0", "RUNNING", "", true⟩], [], 0, 0, []⟩
        ⟨"a9", "FINISHED", "ok", true⟩).2.1 (by decide)
